import Mathlib

/-!
Verification of the AnnotateCLI annotation store (Go, single-file CLI).

The source is a command-line tool that merges "annotation" records into a
JSON envelope file.  We shallowly embed the data model (`AnnotationEntry`,
`AnnotationsEnvelope`), the pure merge engine (the body of `CLI.annotate`
between loading and saving), the envelope loader (`loadEnvelope`), the
summary-file reader (`readSummaryFile`), and the end-to-end invocation
(`annotateRun`) over an explicit file-system state.  File contents are
Strings; JSON parsing (Go `encoding/json.Unmarshal`) is embedded as an
executable JSON parser plus a decoder matching the struct tags.
-/

set_option autoImplicit false

namespace AnnotateCLI

/-- Mirrors Go struct `AnnotationEntry` (json tags: context_name, timestamp,
style, summary, summary_file, priority, mode). Go `int` carries no arithmetic
here (only assignment and `> 0` comparison), so `Int` is a faithful carrier. -/
structure AnnotationEntry where
  context_name : String
  timestamp : String
  style : String
  summary : String
  summary_file : String
  priority : Int
  mode : String
deriving Repr, DecidableEq

/-- Mirrors Go struct `AnnotationsEnvelope` (json tags: planExecutionId,
annotations). -/
structure AnnotationsEnvelope where
  planExecutionId : String
  annotations : List AnnotationEntry
deriving Repr, DecidableEq

/-- Zero value of `AnnotationsEnvelope` (Go `AnnotationsEnvelope{}`). -/
def emptyEnvelope : AnnotationsEnvelope :=
  { planExecutionId := "", annotations := [] }

/-- Go `unicode.IsSpace`: the Unicode White_Space property, i.e. tab, LF,
vertical tab, form feed, CR, space, NEL, NBSP, ogham space mark, the
en-quad..hair-space block, line and paragraph separators, narrow no-break
space, medium mathematical space, and ideographic space. -/
def isSpaceGo (c : Char) : Bool :=
  c.toNat = 9 ∨ c.toNat = 10 ∨ c.toNat = 11 ∨ c.toNat = 12 ∨ c.toNat = 13 ∨
  c.toNat = 32 ∨ c.toNat = 0x85 ∨ c.toNat = 0xA0 ∨ c.toNat = 0x1680 ∨
  (0x2000 ≤ c.toNat ∧ c.toNat ≤ 0x200A) ∨ c.toNat = 0x2028 ∨ c.toNat = 0x2029 ∨
  c.toNat = 0x202F ∨ c.toNat = 0x205F ∨ c.toNat = 0x3000

/-- Go `strings.TrimSpace`: strip leading and trailing `unicode.IsSpace`
characters. -/
def trimSpace (s : String) : String :=
  String.mk (((s.data.dropWhile isSpaceGo).reverse.dropWhile
    isSpaceGo).reverse)

/-- The `switch mode` normalization in `CLI.annotate`: `replace`, `append`
and `delete` pass through; empty and unknown values become `replace`. -/
def normalizeMode (mode : String) : String :=
  if mode = "replace" ∨ mode = "append" ∨ mode = "delete" then mode
  else "replace"

/-- The entry built when no record exists for the context (the `idx == -1`
branch of `CLI.annotate`): every field is seeded from the request. -/
def newEntry (contextName style summary summaryFile mode now : String)
    (priority : Int) : AnnotationEntry :=
  { context_name := contextName
    timestamp := now
    style := style
    summary := summary
    summary_file := summaryFile
    priority := priority
    mode := mode }

/-- The `else` branch of `CLI.annotate`: merge the request into an existing
entry according to the (already normalized) mode.  Follows the Go statement
sequence: timestamp first, then the per-mode field updates. -/
def mergeEntry (entry0 : AnnotationEntry)
    (style summary summaryFile mode now : String) (priority : Int) :
    AnnotationEntry :=
  let entry := { entry0 with timestamp := now }
  if mode = "delete" then
    { entry with mode := "delete", summary := "", style := "", priority := 0 }
  else if mode = "replace" then
    let entry := if style ≠ "" then { entry with style := style } else entry
    let entry := { entry with summary := summary, mode := "replace" }
    let entry := if priority > 0 then { entry with priority := priority } else entry
    let entry :=
      if summaryFile ≠ "" then { entry with summary_file := summaryFile } else entry
    entry
  else
    let entry := if style ≠ "" then { entry with style := style } else entry
    let entry :=
      if summary ≠ "" then
        if entry.summary ≠ "" then
          { entry with summary := entry.summary ++ "\n" ++ summary }
        else
          { entry with summary := summary }
      else entry
    let entry := { entry with mode := "append" }
    let entry := if priority > 0 then { entry with priority := priority } else entry
    let entry :=
      if summaryFile ≠ "" then { entry with summary_file := summaryFile } else entry
    entry

/-- The find-or-create loop of `CLI.annotate`: the Go code scans
`env.Annotations` for the first entry with this `context_name`, merges into it
in place if found, and appends a fresh entry at the end otherwise.  The
recursion updates the first match and keeps every other entry, which is
exactly that index-based scan-and-set. -/
def mergeAnnotations (anns : List AnnotationEntry)
    (contextName style summary summaryFile mode now : String) (priority : Int) :
    List AnnotationEntry :=
  match anns with
  | [] => [newEntry contextName style summary summaryFile mode now priority]
  | e :: rest =>
    if e.context_name = contextName then
      mergeEntry e style summary summaryFile mode now priority :: rest
    else
      e :: mergeAnnotations rest contextName style summary summaryFile mode now priority

/-- The `planExecutionId` step of `CLI.annotate`: set it from the environment
value only when the stored value trims to empty and the environment value does
not. -/
def setPlanExecutionID (env : AnnotationsEnvelope) (pe : String) :
    AnnotationsEnvelope :=
  if trimSpace env.planExecutionId = "" then
    if trimSpace pe ≠ "" then { env with planExecutionId := pe } else env
  else env

/-- The in-memory transformation performed by `CLI.annotate` between a
successful load and the save: the `planExecutionId` first-write step, mode
normalization, and the find-or-create merge.  `summary` is the text already
read from the summary file; `pe` is the `HARNESS_EXECUTION_ID` environment
value; `now` stands for the formatted `time.Now()`. -/
def annotate (env : AnnotationsEnvelope)
    (contextName style summary summaryFile mode : String) (priority : Int)
    (pe now : String) : AnnotationsEnvelope :=
  let env := setPlanExecutionID env pe
  let mode := normalizeMode mode
  { env with
    annotations :=
      mergeAnnotations env.annotations contextName style summary summaryFile
        mode now priority }

/-- Observation: the record stored for a context (first match in the
sequence, as in the Go scan). -/
def findEntry (env : AnnotationsEnvelope) (c : String) : Option AnnotationEntry :=
  env.annotations.find? (fun e => e.context_name = c)

/-! ### JSON parsing, modelling `encoding/json.Unmarshal` on the envelope -/

/-- JSON insignificant whitespace. -/
def isJsonWs (c : Char) : Bool :=
  c = ' ' ∨ c = '\t' ∨ c = '\n' ∨ c = '\r'

/-- Drop leading JSON whitespace. -/
def skipWs : List Char → List Char
  | [] => []
  | c :: cs => if isJsonWs c then skipWs cs else c :: cs

/-- JSON values.  A number remembers its exact integer value when the literal
had no fraction or exponent part; Go refuses to unmarshal a non-integer
literal into an `int` field. -/
inductive Json where
  | null
  | bool (b : Bool)
  | num (intVal : Option Int)
  | str (s : String)
  | arr (items : List Json)
  | obj (fields : List (String × Json))

/-- Value of one hex digit. -/
def hexVal (c : Char) : Option Nat :=
  if '0' ≤ c ∧ c ≤ '9' then some (c.toNat - 48)
  else if 'a' ≤ c ∧ c ≤ 'f' then some (c.toNat - 87)
  else if 'A' ≤ c ∧ c ≤ 'F' then some (c.toNat - 55)
  else none

/-- Scan a JSON string body (after the opening quote) up to the closing
quote, resolving escapes as Go `encoding/json` does: the short escapes, and
`u` escapes with valid surrogate pairs combined and lone surrogate halves
replaced by U+FFFD; fuelled by the remaining input length. -/
def scanStringBody : Nat → List Char → Option (List Char × List Char)
  | 0, _ => none
  | _, [] => none
  | fuel + 1, c :: cs =>
    if c = '"' then some ([], cs)
    else if c = '\\' then
      match cs with
      | [] => none
      | e :: cs2 =>
        if e = '"' then (scanStringBody fuel cs2).map (fun x => ('"' :: x.1, x.2))
        else if e = '\\' then (scanStringBody fuel cs2).map (fun x => ('\\' :: x.1, x.2))
        else if e = '/' then (scanStringBody fuel cs2).map (fun x => ('/' :: x.1, x.2))
        else if e = 'b' then (scanStringBody fuel cs2).map (fun x => (Char.ofNat 8 :: x.1, x.2))
        else if e = 'f' then (scanStringBody fuel cs2).map (fun x => (Char.ofNat 12 :: x.1, x.2))
        else if e = 'n' then (scanStringBody fuel cs2).map (fun x => ('\n' :: x.1, x.2))
        else if e = 'r' then (scanStringBody fuel cs2).map (fun x => ('\r' :: x.1, x.2))
        else if e = 't' then (scanStringBody fuel cs2).map (fun x => ('\t' :: x.1, x.2))
        else if e = 'u' then
          match cs2 with
          | h1 :: h2 :: h3 :: h4 :: cs3 =>
            match hexVal h1, hexVal h2, hexVal h3, hexVal h4 with
            | some a, some b, some c2, some d =>
              let n := ((a * 16 + b) * 16 + c2) * 16 + d
              if 0xD800 ≤ n ∧ n < 0xDC00 then
                match cs3 with
                | '\\' :: 'u' :: g1 :: g2 :: g3 :: g4 :: cs4 =>
                  match hexVal g1, hexVal g2, hexVal g3, hexVal g4 with
                  | some a2, some b2, some c3, some d2 =>
                    let m := ((a2 * 16 + b2) * 16 + c3) * 16 + d2
                    if 0xDC00 ≤ m ∧ m < 0xE000 then
                      (scanStringBody fuel cs4).map (fun x =>
                        (Char.ofNat (0x10000 + (n - 0xD800) * 0x400 + (m - 0xDC00)) ::
                          x.1, x.2))
                    else
                      (scanStringBody fuel cs3).map
                        (fun x => (Char.ofNat 0xFFFD :: x.1, x.2))
                  | _, _, _, _ =>
                    (scanStringBody fuel cs3).map (fun x => (Char.ofNat 0xFFFD :: x.1, x.2))
                | _ =>
                  (scanStringBody fuel cs3).map (fun x => (Char.ofNat 0xFFFD :: x.1, x.2))
              else if 0xDC00 ≤ n ∧ n < 0xE000 then
                (scanStringBody fuel cs3).map (fun x => (Char.ofNat 0xFFFD :: x.1, x.2))
              else
                (scanStringBody fuel cs3).map (fun x => (Char.ofNat n :: x.1, x.2))
            | _, _, _, _ => none
          | _ => none
        else none
    else if c.toNat < 32 then none
    else (scanStringBody fuel cs).map (fun x => (c :: x.1, x.2))

/-- Decimal value of a digit list. -/
def digitsToNat (ds : List Char) : Nat :=
  ds.foldl (fun a c => a * 10 + (c.toNat - 48)) 0

/-- Scan a JSON number literal (JSON grammar: optional minus, integer part
without leading zeros, optional fraction, optional exponent). -/
def scanNumber (cs : List Char) : Option (Json × List Char) :=
  let negAndRest : Bool × List Char :=
    match cs with
    | '-' :: rest => (true, rest)
    | _ => (false, cs)
  let neg := negAndRest.1
  let cs1 := negAndRest.2
  let ds := cs1.takeWhile Char.isDigit
  if ds = [] then none
  else if ds.length > 1 ∧ ds.headD 'x' = '0' then none
  else
    let cs2 := cs1.drop ds.length
    let fracRes : Option (Bool × List Char) :=
      match cs2 with
      | '.' :: rest =>
        let fs := rest.takeWhile Char.isDigit
        if fs = [] then none else some (true, rest.drop fs.length)
      | _ => some (false, cs2)
    match fracRes with
    | none => none
    | some (hasFrac, cs3) =>
      let expRes : Option (Bool × List Char) :=
        match cs3 with
        | e :: rest =>
          if e = 'e' ∨ e = 'E' then
            let rest2 :=
              match rest with
              | s :: r2 => if s = '+' ∨ s = '-' then r2 else rest
              | [] => rest
            let es := rest2.takeWhile Char.isDigit
            if es = [] then none else some (true, rest2.drop es.length)
          else some (false, cs3)
        | [] => some (false, cs3)
      match expRes with
      | none => none
      | some (hasExp, cs4) =>
        let iv : Option Int :=
          if hasFrac ∨ hasExp then none
          else if neg then some (-(digitsToNat ds : Int)) else some ((digitsToNat ds : Int))
        some (Json.num iv, cs4)

mutual

/-- Recursive-descent JSON value reader, fuelled. -/
def parseVal : Nat → List Char → Option (Json × List Char)
  | 0, _ => none
  | fuel + 1, cs =>
    match skipWs cs with
    | [] => none
    | c :: cs1 =>
      if c = '"' then
        (scanStringBody (cs1.length + 1) cs1).map (fun x => (Json.str (String.mk x.1), x.2))
      else if c = '\x7b' then
        match skipWs cs1 with
        | '\x7d' :: cs2 => some (Json.obj [], cs2)
        | _ => (parseMembers fuel cs1).map (fun x => (Json.obj x.1, x.2))
      else if c = '[' then
        match skipWs cs1 with
        | ']' :: cs2 => some (Json.arr [], cs2)
        | _ => (parseItems fuel cs1).map (fun x => (Json.arr x.1, x.2))
      else if c = 't' then
        match cs1 with
        | 'r' :: 'u' :: 'e' :: cs2 => some (Json.bool true, cs2)
        | _ => none
      else if c = 'f' then
        match cs1 with
        | 'a' :: 'l' :: 's' :: 'e' :: cs2 => some (Json.bool false, cs2)
        | _ => none
      else if c = 'n' then
        match cs1 with
        | 'u' :: 'l' :: 'l' :: cs2 => some (Json.null, cs2)
        | _ => none
      else if c = '-' ∨ c.isDigit then
        scanNumber (c :: cs1)
      else none

/-- Comma-separated array items up to the closing bracket. -/
def parseItems : Nat → List Char → Option (List Json × List Char)
  | 0, _ => none
  | fuel + 1, cs =>
    match parseVal fuel cs with
    | none => none
    | some (v, rest) =>
      match skipWs rest with
      | ',' :: rest2 => (parseItems fuel rest2).map (fun x => (v :: x.1, x.2))
      | ']' :: rest2 => some ([v], rest2)
      | _ => none

/-- Comma-separated object members up to the closing brace. -/
def parseMembers : Nat → List Char → Option (List (String × Json) × List Char)
  | 0, _ => none
  | fuel + 1, cs =>
    match skipWs cs with
    | '"' :: cs1 =>
      match scanStringBody (cs1.length + 1) cs1 with
      | none => none
      | some (k, rest) =>
        match skipWs rest with
        | ':' :: rest2 =>
          match parseVal fuel rest2 with
          | none => none
          | some (v, rest3) =>
            match skipWs rest3 with
            | ',' :: rest4 =>
              (parseMembers fuel rest4).map (fun x => ((String.mk k, v) :: x.1, x.2))
            | '\x7d' :: rest4 => some ([(String.mk k, v)], rest4)
            | _ => none
        | _ => none
    | _ => none

end

/-- Parse a whole JSON document: one value and nothing but whitespace after
it (Go `json.Unmarshal` rejects trailing data). -/
def parseJson (s : String) : Option Json :=
  match parseVal (2 * s.length + 2) s.data with
  | none => none
  | some (j, rest) => if skipWs rest = [] then some j else none

/-- One step of Go `unicode.SimpleFold` normalization towards ASCII: ASCII
upper case folds to lower case, and the two non-ASCII characters whose simple
case-fold orbit meets ASCII (long s U+017F and Kelvin sign U+212A) fold to
their ASCII representatives.  This decides `strings.EqualFold` exactly
against the all-ASCII struct tags of this schema. -/
def foldChar (c : Char) : Char :=
  if 'A' ≤ c ∧ c ≤ 'Z' then Char.ofNat (c.toNat + 32)
  else if c.toNat = 0x17F then 's'
  else if c.toNat = 0x212A then 'k'
  else c

/-- Go `strings.EqualFold` restricted as in `foldChar`. -/
def eqFold (a b : String) : Bool :=
  a.data.map foldChar = b.data.map foldChar

/-- Object-field lookup as Go `json.Unmarshal` resolves struct keys: every
JSON key matching the tag case-insensitively writes the field in document
order, so the last such key wins (an exact match has no precedence between
distinct keys, only within one key's field resolution, and no two tags of
this schema share a fold class). -/
def lookupField (kvs : List (String × Json)) (k : String) : Option Json :=
  (kvs.reverse.find? (fun kv => eqFold kv.1 k)).map (fun kv => kv.2)

/-- Decode a string struct field: missing or null keeps the zero value,
any non-string JSON value is a type error. -/
def decodeStrField : Option Json → Option String
  | none => some ""
  | some Json.null => some ""
  | some (Json.str s) => some s
  | some _ => none

/-- Decode an int struct field: missing or null keeps the zero value, only an
integer literal that fits Go `int` (64-bit) is accepted — an out-of-range
integer is an unmarshal error. -/
def decodeIntField : Option Json → Option Int
  | none => some 0
  | some Json.null => some 0
  | some (Json.num (some v)) =>
    if -9223372036854775808 ≤ v ∧ v ≤ 9223372036854775807 then some v else none
  | some _ => none

/-- Unmarshal one annotation entry from a JSON value: null into a struct is
the documented Go no-op, keeping the zero-value entry; otherwise it must be
an object (unknown keys are ignored, as in Go). -/
def decodeEntry : Json → Option AnnotationEntry
  | Json.null => some ⟨"", "", "", "", "", 0, ""⟩
  | Json.obj kvs => do
    let cn ← decodeStrField (lookupField kvs "context_name")
    let ts ← decodeStrField (lookupField kvs "timestamp")
    let st ← decodeStrField (lookupField kvs "style")
    let su ← decodeStrField (lookupField kvs "summary")
    let sf ← decodeStrField (lookupField kvs "summary_file")
    let pr ← decodeIntField (lookupField kvs "priority")
    let md ← decodeStrField (lookupField kvs "mode")
    some ⟨cn, ts, st, su, sf, pr, md⟩
  | _ => none

/-- Unmarshal the annotations slice: missing or null is the nil slice. -/
def decodeEntries : Option Json → Option (List AnnotationEntry)
  | none => some []
  | some Json.null => some []
  | some (Json.arr items) => items.mapM decodeEntry
  | some _ => none

/-- Unmarshal the envelope from a JSON value: null into a struct is the
documented Go no-op, leaving the zero-value envelope; otherwise it must be an
object. -/
def decodeEnvelope : Json → Option AnnotationsEnvelope
  | Json.null => some emptyEnvelope
  | Json.obj kvs => do
    let pe ← decodeStrField (lookupField kvs "planExecutionId")
    let anns ← decodeEntries (lookupField kvs "annotations")
    some ⟨pe, anns⟩
  | _ => none

/-- `json.Unmarshal(data, &env)`: syntax check plus schema decoding. -/
def parseEnvelope (s : String) : Option AnnotationsEnvelope :=
  (parseJson s).bind decodeEnvelope

/-! ### File-system level: load, summary reading, save, whole invocation -/

/-- The error kinds of the invocation that the claims mention.
`malformedStore` is the `invalid annotations file format` failure of
`loadEnvelope`; `summaryRead` and `summaryTooLarge` are the two failures of
`readSummaryFile`. -/
inductive CliError where
  | malformedStore
  | summaryRead (path : String)
  | summaryTooLarge (path : String) (size : Nat)
deriving Repr, DecidableEq

/-- `CLI.loadEnvelope`: a missing file (`os.IsNotExist`) and an existing
zero-byte file both give the zero-value envelope; otherwise the bytes must
unmarshal as the envelope. -/
def loadEnvelope (file : Option String) : Except CliError AnnotationsEnvelope :=
  match file with
  | none => Except.ok emptyEnvelope
  | some data =>
    if data = "" then Except.ok emptyEnvelope
    else
      match parseEnvelope data with
      | some env => Except.ok env
      | none => Except.error CliError.malformedStore

/-- What `os.Stat` and `os.ReadFile` return for a summary file: the size
reported by `Stat` (which `readSummaryFile` checks without reading the
content) and the content `ReadFile` would deliver. -/
structure SummaryFileInfo where
  size : Nat
  content : String
deriving Repr, DecidableEq

/-- The file-system state an invocation sees: the annotations store file
(`none` when the path does not exist) and the summary files by path. -/
structure FS where
  annotationsFile : Option String
  summaryFiles : List (String × SummaryFileInfo)
deriving Repr, DecidableEq

/-- `os.Stat` on a summary path. -/
def FS.stat (fs : FS) (path : String) : Option SummaryFileInfo :=
  (fs.summaryFiles.find? (fun kv => kv.1 = path)).map (fun kv => kv.2)

/-- Go constant `MaxSummaryFileBytes = 64 * 1024`. -/
def MaxSummaryFileBytes : Nat := 64 * 1024

/-- `CLI.readSummaryFile`: empty path reads nothing; a missing file is a read
error; a stat size strictly above the bound is `SummaryTooLargeError`;
otherwise the content is returned. -/
def readSummaryFile (fs : FS) (filePath : String) : Except CliError String :=
  if filePath = "" then Except.ok ""
  else
    match fs.stat filePath with
    | none => Except.error (CliError.summaryRead filePath)
    | some info =>
      if info.size > MaxSummaryFileBytes then
        Except.error (CliError.summaryTooLarge filePath info.size)
      else Except.ok info.content

/-- Lower-case hex digit. -/
def hexDigit (n : Nat) : Char :=
  if n < 10 then Char.ofNat (48 + n) else Char.ofNat (87 + n)

/-- A four-digit `u` escape for code point `n`. -/
def uHex (n : Nat) : String :=
  String.mk ['\\', 'u', hexDigit (n / 4096 % 16), hexDigit (n / 256 % 16),
    hexDigit (n / 16 % 16), hexDigit (n % 16)]

/-- Go `encoding/json` string escaping: quotes, backslash, control
characters, the HTML-escaped `<`, `>`, `&`, and the line and paragraph
separators U+2028 and U+2029. -/
def escapeChar (c : Char) : String :=
  if c = '"' then "\\\""
  else if c = '\\' then "\\\\"
  else if c = '\n' then "\\n"
  else if c = '\r' then "\\r"
  else if c = '\t' then "\\t"
  else if c.toNat < 32 ∨ c = '<' ∨ c = '>' ∨ c = '&' ∨
      c.toNat = 0x2028 ∨ c.toNat = 0x2029 then
    uHex c.toNat
  else String.singleton c

/-- A JSON string literal for `s`. -/
def quoteJson (s : String) : String :=
  "\"" ++ String.join (s.data.map escapeChar) ++ "\""

/-- `json.MarshalIndent` of one entry at depth two (two-space indent); the
`mode` field carries `omitempty`. -/
def serializeEntry (e : AnnotationEntry) : String :=
  let base :=
    "    \x7b\n      \"context_name\": " ++ quoteJson e.context_name ++ ",\n" ++
    "      \"timestamp\": " ++ quoteJson e.timestamp ++ ",\n" ++
    "      \"style\": " ++ quoteJson e.style ++ ",\n" ++
    "      \"summary\": " ++ quoteJson e.summary ++ ",\n" ++
    "      \"summary_file\": " ++ quoteJson e.summary_file ++ ",\n" ++
    "      \"priority\": " ++ toString e.priority
  let withMode :=
    if e.mode = "" then base
    else base ++ ",\n      \"mode\": " ++ quoteJson e.mode
  withMode ++ "\n    \x7d"

/-- `json.MarshalIndent` of the envelope: `planExecutionId` carries
`omitempty`, and a nil annotations slice marshals as `null`. -/
def serializeEnvelope (env : AnnotationsEnvelope) : String :=
  let annsStr :=
    match env.annotations with
    | [] => "null"
    | es => "[\n" ++ String.intercalate ",\n" (es.map serializeEntry) ++ "\n  ]"
  let head :=
    if env.planExecutionId = "" then "\x7b\n"
    else "\x7b\n  \"planExecutionId\": " ++ quoteJson env.planExecutionId ++ ",\n"
  head ++ "  \"annotations\": " ++ annsStr ++ "\n\x7d"

/-- End-to-end `CLI.annotate` over an explicit file-system state: load the
envelope, refuse malformed stores, read the summary file under its size
bound, merge in memory (`annotate`), and save.  On any error the file system
is returned unchanged, because the Go code writes to disk only in
`saveEnvelope`, which runs last.  The success value is the result pair
(context, step id) of the printed map. -/
def annotateRun (fs : FS) (contextName style summaryFile mode : String)
    (priority : Int) (execIdEnv stepIdEnv now : String) :
    FS × Except CliError (String × String) :=
  match loadEnvelope fs.annotationsFile with
  | Except.error e => (fs, Except.error e)
  | Except.ok env0 =>
    match readSummaryFile fs summaryFile with
    | Except.error e => (fs, Except.error e)
    | Except.ok summary =>
      let env2 := annotate env0 contextName style summary summaryFile mode priority
        execIdEnv now
      ({ fs with annotationsFile := some (serializeEnvelope env2) },
        Except.ok (contextName, stepIdEnv))

/-! ### Concrete sample inputs used by witnesses and counterexamples -/

/-- Stored record with summary `A` for the C1 witness. -/
def entryC1 : AnnotationEntry := ⟨"c", "t0", "info", "A", "", 0, "append"⟩

/-- Envelope holding `entryC1`. -/
def envC1 : AnnotationsEnvelope := ⟨"", [entryC1]⟩

/-- Stored record with priority 7 for the C2 theorems. -/
def entryC2 : AnnotationEntry := ⟨"c", "t0", "info", "S", "", 7, "append"⟩

/-- Envelope holding `entryC2`. -/
def envC2 : AnnotationsEnvelope := ⟨"", [entryC2]⟩

/-- Fully populated stored record for the C3 witness. -/
def entryC3 : AnnotationEntry := ⟨"c", "t0", "warning", "body", "notes.md", 9, "append"⟩

/-- Envelope holding `entryC3`. -/
def envC3 : AnnotationsEnvelope := ⟨"E1", [entryC3]⟩

/-- Envelope whose stored plan execution id is a single space: a non-empty
string that trims to empty. -/
def envC4 : AnnotationsEnvelope := ⟨" ", []⟩

/-- Envelope with no record at all, for the C6 theorems. -/
def envC6 : AnnotationsEnvelope := ⟨"", []⟩

/-- Stored record with priority 7 for the C7 theorems. -/
def entryC7 : AnnotationEntry := ⟨"c", "t0", "info", "S", "", 7, "append"⟩

/-- Envelope holding `entryC7`. -/
def envC7 : AnnotationsEnvelope := ⟨"", [entryC7]⟩

/-- File system whose store file holds content that is not valid JSON. -/
def fsC9 : FS := ⟨some "\x7bnot json", []⟩

/-- File system with no store file and a summary file one byte over the
64 KiB bound (the stat size is what the code checks). -/
def fsC10 : FS := ⟨none, [("big.md", ⟨65537, "x"⟩)]⟩

/-! ### Helper lemmas about the merge engine -/

/-- The plan-execution-id step never touches the annotations sequence. -/
theorem setPlanExecutionID_annotations (env : AnnotationsEnvelope) (pe : String) :
    (setPlanExecutionID env pe).annotations = env.annotations := by
  unfold setPlanExecutionID
  split_ifs <;> rfl

/-- The annotations of an `annotate` result are the merged sequence. -/
theorem annotate_annotations (env : AnnotationsEnvelope)
    (c s b f m : String) (p : Int) (pe now : String) :
    (annotate env c s b f m p pe now).annotations =
      mergeAnnotations env.annotations c s b f (normalizeMode m) now p := by
  simp only [annotate]
  rw [setPlanExecutionID_annotations]

/-- Field-wise characterization of `mergeEntry`, proved from the sequential
update chain of the source. -/
theorem mergeEntry_eq (e : AnnotationEntry) (s b f m now : String) (p : Int) :
    mergeEntry e s b f m now p =
      if m = "delete" then
        { context_name := e.context_name, timestamp := now, style := "",
          summary := "", summary_file := e.summary_file, priority := 0,
          mode := "delete" }
      else
        { context_name := e.context_name
          timestamp := now
          style := if s ≠ "" then s else e.style
          summary :=
            if m = "replace" then b
            else if b ≠ "" then
              (if e.summary ≠ "" then e.summary ++ "\n" ++ b else b)
            else e.summary
          summary_file := if f ≠ "" then f else e.summary_file
          priority := if p > 0 then p else e.priority
          mode := if m = "replace" then "replace" else "append" } := by
  simp only [mergeEntry]
  split_ifs <;> rfl

/-- Merging never changes the key of an entry. -/
theorem mergeEntry_context_name (e : AnnotationEntry)
    (s b f m now : String) (p : Int) :
    (mergeEntry e s b f m now p).context_name = e.context_name := by
  rw [mergeEntry_eq]
  split_ifs <;> rfl

/-- After a merge, the record found for the context is the merged form of the
record found before (or the fresh entry when there was none). -/
theorem mergeAnnotations_find (anns : List AnnotationEntry)
    (c s b f m now : String) (p : Int) :
    (mergeAnnotations anns c s b f m now p).find? (fun e => e.context_name = c) =
      some (match anns.find? (fun e => e.context_name = c) with
            | none => newEntry c s b f m now p
            | some e => mergeEntry e s b f m now p) := by
  induction anns with
  | nil =>
    simp [mergeAnnotations, List.find?, newEntry]
  | cons e rest ih =>
    by_cases h : e.context_name = c
    · simp [mergeAnnotations, h, List.find?, mergeEntry_context_name]
    · simp [mergeAnnotations, h, List.find?, ih]

/-- When no record matches the context, the merge appends the fresh entry at
the end and keeps everything else. -/
theorem mergeAnnotations_of_none (anns : List AnnotationEntry)
    (c s b f m now : String) (p : Int)
    (h : anns.find? (fun e => e.context_name = c) = none) :
    mergeAnnotations anns c s b f m now p =
      anns ++ [newEntry c s b f m now p] := by
  induction anns with
  | nil => rfl
  | cons e rest ih =>
    by_cases hc : e.context_name = c
    · simp [List.find?, hc] at h
    · rw [List.find?_cons_of_neg _ (by simp [hc])] at h
      simp [mergeAnnotations, hc, ih h]

/-- Applying `replace` twice in a row with the same request only moves the
timestamp of the merged entry. -/
theorem mergeEntry_replace_twice (e : AnnotationEntry)
    (s b f now1 now2 : String) (p : Int) :
    mergeEntry (mergeEntry e s b f "replace" now1 p) s b f "replace" now2 p =
      { mergeEntry e s b f "replace" now1 p with timestamp := now2 } := by
  simp only [mergeEntry_eq]
  split_ifs <;> simp_all

/-- Applying `replace` to the entry just created from the same request only
moves the timestamp. -/
theorem mergeEntry_newEntry_replace (c s b f now1 now2 : String) (p : Int) :
    mergeEntry (newEntry c s b f "replace" now1 p) s b f "replace" now2 p =
      { newEntry c s b f "replace" now1 p with timestamp := now2 } := by
  simp only [mergeEntry_eq, newEntry]
  split_ifs <;> simp_all

/-! ### C1 — append accumulation -/

/-- C1: on an envelope holding a record for context `c`, `annotate` in
`append` mode concatenates a non-empty incoming summary onto a non-empty
stored summary with exactly one newline, sets it directly when the stored
summary is empty, and leaves the stored summary unchanged when the incoming
summary is empty. -/
theorem append_accumulation (env : AnnotationsEnvelope)
    (c s b f : String) (p : Int) (pe now : String) (e : AnnotationEntry)
    (h : findEntry env c = some e) :
    ∃ e2, findEntry (annotate env c s b f "append" p pe now) c = some e2 ∧
      e2.summary = (if b = "" then e.summary
                    else if e.summary = "" then b
                    else e.summary ++ "\n" ++ b) := by
  refine ⟨mergeEntry e s b f "append" now p, ?_, ?_⟩
  · unfold findEntry at h ⊢
    rw [annotate_annotations]
    have hnm : normalizeMode "append" = "append" := rfl
    rw [hnm, mergeAnnotations_find]
    simp [h]
  · rw [mergeEntry_eq]
    by_cases hb : b = "" <;> by_cases hs : e.summary = "" <;> simp_all

/-- Witness for C1 at a concrete envelope: appending `B` to stored `A`
yields the stored summary given by the accumulation rule. -/
theorem append_accumulation_witness :
    findEntry envC1 "c" = some entryC1 ∧
    (∃ e2, findEntry (annotate envC1 "c" "" "B" "" "append" 0 "" "t1") "c" = some e2 ∧
      e2.summary = (if ("B" : String) = "" then entryC1.summary
                    else if entryC1.summary = "" then "B"
                    else entryC1.summary ++ "\n" ++ "B")) :=
  ⟨by decide, append_accumulation envC1 "c" "" "B" "" 0 "" "t1" entryC1 (by decide)⟩

/-! ### C2 — priority stickiness -/

/-- C2 counterexample: the claim says any update (including `delete` mode)
with request priority 0 keeps a stored non-zero priority, but `delete`
resets the stored priority 7 to 0. -/
theorem priority_zero_delete_cex :
    (findEntry envC2 "c").map AnnotationEntry.priority = some 7 ∧
    (findEntry (annotate envC2 "c" "" "" "" "delete" 0 "" "t1") "c").map
      AnnotationEntry.priority = some 0 := by decide

/-- C2 (amended): on a record with non-zero stored priority, an update with
request priority 0 whose normalized mode is not `delete` leaves the stored
priority unchanged. -/
theorem priority_sticky (env : AnnotationsEnvelope)
    (c s b f m : String) (pe now : String) (e : AnnotationEntry)
    (h : findEntry env c = some e) (hnz : e.priority ≠ 0)
    (hm : normalizeMode m ≠ "delete") :
    ∃ e2, findEntry (annotate env c s b f m 0 pe now) c = some e2 ∧
      e2.priority = e.priority := by
  refine ⟨mergeEntry e s b f (normalizeMode m) now 0, ?_, ?_⟩
  · unfold findEntry at h ⊢
    rw [annotate_annotations, mergeAnnotations_find]
    simp [h]
  · rw [mergeEntry_eq, if_neg hm]
    simp

/-- Witness for the amended C2: an `append` update with priority 0 keeps the
stored priority 7. -/
theorem priority_sticky_witness :
    findEntry envC2 "c" = some entryC2 ∧ entryC2.priority ≠ 0 ∧
    normalizeMode "append" ≠ "delete" ∧
    (∃ e2, findEntry (annotate envC2 "c" "" "" "" "append" 0 "" "t1") "c" = some e2 ∧
      e2.priority = entryC2.priority) :=
  ⟨by decide, by decide, by decide,
    priority_sticky envC2 "c" "" "" "" "append" "" "t1" entryC2 (by decide) (by decide)
      (by decide)⟩

/-! ### C3 — delete clears content fields only -/

/-- C3: on an envelope holding a record for context `c`, `annotate` in
`delete` mode stores exactly the record whose style, summary and priority are
the zero values, whose mode is `delete`, whose timestamp is the current time,
and whose context name and summary source path are those of the prior
record — no other field exists, so nothing else changes. -/
theorem delete_clears (env : AnnotationsEnvelope)
    (c s b f : String) (p : Int) (pe now : String) (e : AnnotationEntry)
    (h : findEntry env c = some e) :
    findEntry (annotate env c s b f "delete" p pe now) c =
      some { context_name := e.context_name, timestamp := now, style := "",
             summary := "", summary_file := e.summary_file, priority := 0,
             mode := "delete" } := by
  unfold findEntry at h ⊢
  rw [annotate_annotations]
  have hnm : normalizeMode "delete" = "delete" := rfl
  rw [hnm, mergeAnnotations_find]
  simp [h, mergeEntry_eq]

/-- Witness for C3 at a concrete fully-populated record. -/
theorem delete_clears_witness :
    findEntry envC3 "c" = some entryC3 ∧
    findEntry (annotate envC3 "c" "s" "b" "f" "delete" 3 "" "t1") "c" =
      some { context_name := entryC3.context_name, timestamp := "t1", style := "",
             summary := "", summary_file := entryC3.summary_file, priority := 0,
             mode := "delete" } :=
  ⟨by decide, delete_clears envC3 "c" "s" "b" "f" 3 "" "t1" entryC3 (by decide)⟩

/-! ### C4 — first-write-wins plan execution id -/

/-- C4 counterexample: a stored plan execution id of a single space is a
non-empty string, yet `annotate` overwrites it with the environment value,
because the code tests `strings.TrimSpace`, not emptiness. -/
theorem plan_exec_cex :
    envC4.planExecutionId ≠ "" ∧
    (annotate envC4 "c" "" "" "" "" 0 "E2" "t1").planExecutionId ≠
      envC4.planExecutionId := by decide

/-- C4 (amended): `annotate` assigns the environment execution id exactly
when the stored id trims to empty and the environment value trims to
non-empty; a stored id containing any non-whitespace character is never
changed (first-write-wins up to whitespace). -/
theorem plan_exec_first_write (env : AnnotationsEnvelope)
    (c s b f m : String) (p : Int) (pe now : String) :
    (annotate env c s b f m p pe now).planExecutionId =
      (if trimSpace env.planExecutionId = "" ∧ trimSpace pe ≠ "" then pe
       else env.planExecutionId) := by
  show (setPlanExecutionID env pe).planExecutionId = _
  unfold setPlanExecutionID
  split_ifs with h1 h2 <;> simp_all

/-! ### C5 — idempotent replace -/

/-- C5: applying `annotate` in `replace` mode twice with identical request
inputs stores, for that context, the same record as applying it once in every
field except the timestamp, which becomes the second call time. -/
theorem replace_idempotent (env : AnnotationsEnvelope)
    (c s b f : String) (p : Int) (pe now1 now2 : String) :
    findEntry
        (annotate (annotate env c s b f "replace" p pe now1) c s b f "replace" p pe now2) c =
      (findEntry (annotate env c s b f "replace" p pe now1) c).map
        (fun e => { e with timestamp := now2 }) := by
  unfold findEntry
  have hnm : normalizeMode "replace" = "replace" := rfl
  rw [annotate_annotations, annotate_annotations, hnm, mergeAnnotations_find,
    mergeAnnotations_find]
  cases henv : env.annotations.find? (fun e => e.context_name = c) with
  | none => simp [mergeEntry_newEntry_replace]
  | some e => simp [mergeEntry_replace_twice]

/-! ### C6 — delete on a missing context -/

/-- C6 counterexample: `delete` on a missing context seeds the new record
from the request, so with non-empty request style, summary and priority the
created record is not empty. -/
theorem delete_missing_cex :
    findEntry envC6 "c" = none ∧
    (findEntry (annotate envC6 "c" "warn" "X" "" "delete" 5 "" "t1") "c").map
      AnnotationEntry.style = some "warn" ∧
    (findEntry (annotate envC6 "c" "warn" "X" "" "delete" 5 "" "t1") "c").map
      AnnotationEntry.priority = some 5 := by decide

/-- C6 (amended): `delete` on a context with no record appends a new record
at the end of the sequence, seeded from the request (style, summary, summary
file and priority taken verbatim, timestamp = now, mode = delete); it is
empty exactly when the delete request carries empty content fields. -/
theorem delete_missing_creates (env : AnnotationsEnvelope)
    (c s b f : String) (p : Int) (pe now : String)
    (h : findEntry env c = none) :
    (annotate env c s b f "delete" p pe now).annotations =
      env.annotations ++ [newEntry c s b f "delete" now p] := by
  rw [annotate_annotations]
  have hnm : normalizeMode "delete" = "delete" := rfl
  rw [hnm]
  exact mergeAnnotations_of_none env.annotations c s b f "delete" now p h

/-- Witness for the amended C6: a content-free delete request on a missing
context appends the corresponding fresh record. -/
theorem delete_missing_creates_witness :
    findEntry envC6 "x" = none ∧
    (annotate envC6 "x" "" "" "" "delete" 0 "" "t1").annotations =
      envC6.annotations ++ [newEntry "x" "" "" "" "delete" "t1" 0] :=
  ⟨by decide, delete_missing_creates envC6 "x" "" "" "" 0 "" "t1" (by decide)⟩

/-! ### C7 — negative priorities -/

/-- C7 counterexample: updating an existing record in `replace` mode with
priority -3 does not store -3 verbatim; the stored priority 7 is kept,
because only priorities strictly greater than zero overwrite. -/
theorem negative_priority_cex :
    (findEntry envC7 "c").map AnnotationEntry.priority = some 7 ∧
    (findEntry (annotate envC7 "c" "" "" "" "replace" (-3) "" "t1") "c").map
      AnnotationEntry.priority = some 7 ∧ (7 : Int) ≠ -3 := by decide

/-- C7 (amended): a negative request priority is never an error; it is stored
verbatim when the record is newly created, while on an existing record in
`replace` or `append` mode a non-positive priority leaves the stored priority
unchanged. -/
theorem negative_priority_handling (env : AnnotationsEnvelope)
    (c s b f m : String) (p : Int) (pe now : String)
    (hp : p < 0) (hm : m = "replace" ∨ m = "append") :
    (findEntry env c = none →
        (annotate env c s b f m p pe now).annotations =
          env.annotations ++ [newEntry c s b f m now p]) ∧
    (∀ e, findEntry env c = some e →
        ∃ e2, findEntry (annotate env c s b f m p pe now) c = some e2 ∧
          e2.priority = e.priority) := by
  have hnm : normalizeMode m = m := by
    rcases hm with h | h <;> subst h <;> rfl
  have hmd : m ≠ "delete" := by
    rcases hm with h | h <;> subst h <;> decide
  constructor
  · intro h
    rw [annotate_annotations, hnm]
    exact mergeAnnotations_of_none env.annotations c s b f m now p h
  · intro e h
    refine ⟨mergeEntry e s b f m now p, ?_, ?_⟩
    · unfold findEntry at h ⊢
      rw [annotate_annotations, hnm, mergeAnnotations_find]
      simp [h]
    · rw [mergeEntry_eq, if_neg hmd]
      simp
      intro hp2
      exact absurd (lt_trans hp hp2) (lt_irrefl p)

/-- Witness for the amended C7: a `replace` update with priority -3 on a
record storing priority 7 keeps 7. -/
theorem negative_priority_handling_witness :
    ((-3 : Int) < 0) ∧ ("replace" = "replace" ∨ "replace" = "append") ∧
    (∃ e2, findEntry (annotate envC7 "c" "" "" "" "replace" (-3) "" "t1") "c" = some e2 ∧
      e2.priority = entryC7.priority) :=
  ⟨by decide, Or.inl rfl,
    (negative_priority_handling envC7 "c" "" "" "" "replace" (-3) "" "t1" (by decide)
      (Or.inl rfl)).2 entryC7 (by decide)⟩

/-! ### C8 — bootstrap on missing or empty store file -/

/-- C8: loading a nonexistent store path and loading an existing zero-byte
store file both return the fresh empty envelope (empty annotations sequence,
empty identity field) without an error. -/
theorem load_bootstrap :
    loadEnvelope none = Except.ok emptyEnvelope ∧
    loadEnvelope (some "") = Except.ok emptyEnvelope ∧
    emptyEnvelope.planExecutionId = "" ∧ emptyEnvelope.annotations = [] :=
  ⟨rfl, rfl, rfl, rfl⟩

/-! ### C9 — corrupt store rejection -/

/-- C9: when the store file exists, is non-empty and does not unmarshal as
the envelope, loading fails with the malformed-store error and the whole
invocation fails with that error while leaving the file system — in
particular the corrupt file content — unchanged (no save happens). -/
theorem corrupt_store_rejected (fs : FS) (data : String)
    (c s f m : String) (p : Int) (ee se now : String)
    (hfile : fs.annotationsFile = some data) (hne : data ≠ "")
    (hbad : parseEnvelope data = none) :
    loadEnvelope fs.annotationsFile = Except.error CliError.malformedStore ∧
    annotateRun fs c s f m p ee se now =
      (fs, Except.error CliError.malformedStore) := by
  have hload : loadEnvelope fs.annotationsFile = Except.error CliError.malformedStore := by
    rw [hfile]
    simp [loadEnvelope, hne, hbad]
  refine ⟨hload, ?_⟩
  unfold annotateRun
  rw [hload]

/-- Witness for C9 on the concrete content `{not json`. -/
theorem corrupt_store_rejected_witness :
    fsC9.annotationsFile = some "\x7bnot json" ∧
    ("\x7bnot json" : String) ≠ "" ∧
    parseEnvelope "\x7bnot json" = none ∧
    (loadEnvelope fsC9.annotationsFile = Except.error CliError.malformedStore ∧
     annotateRun fsC9 "c" "" "" "replace" 0 "" "" "t1" =
       (fsC9, Except.error CliError.malformedStore)) :=
  ⟨rfl, by decide, by decide,
    corrupt_store_rejected fsC9 "\x7bnot json" "c" "" "" "replace" 0 "" "" "t1" rfl
      (by decide) (by decide)⟩

/-! ### C10 — summary size bound -/

/-- C10: with a loadable store and a summary file of stat size strictly above
64 KiB, the invocation fails with the summary-too-large error and the file
system is unchanged (the save never runs); a file of at most 64 KiB is not
rejected by this bound — its content is read. -/
theorem summary_size_bound (fs : FS) (c s f m : String) (p : Int)
    (ee se now : String) (env0 : AnnotationsEnvelope) (info : SummaryFileInfo)
    (hload : loadEnvelope fs.annotationsFile = Except.ok env0)
    (hf : f ≠ "") (hstat : fs.stat f = some info) :
    (info.size > MaxSummaryFileBytes →
      annotateRun fs c s f m p ee se now =
        (fs, Except.error (CliError.summaryTooLarge f info.size))) ∧
    (info.size ≤ MaxSummaryFileBytes → readSummaryFile fs f = Except.ok info.content) := by
  constructor
  · intro hbig
    have hread : readSummaryFile fs f =
        Except.error (CliError.summaryTooLarge f info.size) := by
      unfold readSummaryFile
      rw [if_neg hf, hstat]
      simp only [if_pos hbig]
    unfold annotateRun
    rw [hload, hread]
  · intro hsmall
    unfold readSummaryFile
    rw [if_neg hf, hstat]
    simp only [if_neg (not_lt.mpr hsmall)]

/-- Witness for C10 at a summary file of 64 KiB + 1 byte. -/
theorem summary_size_bound_witness :
    loadEnvelope fsC10.annotationsFile = Except.ok emptyEnvelope ∧
    ("big.md" : String) ≠ "" ∧
    fsC10.stat "big.md" = some ⟨65537, "x"⟩ ∧
    ((65537 > MaxSummaryFileBytes →
       annotateRun fsC10 "c" "" "big.md" "replace" 0 "" "" "t1" =
         (fsC10, Except.error (CliError.summaryTooLarge "big.md" 65537))) ∧
     (65537 ≤ MaxSummaryFileBytes → readSummaryFile fsC10 "big.md" = Except.ok "x")) :=
  ⟨rfl, by decide, by decide,
    summary_size_bound fsC10 "c" "" "big.md" "replace" 0 "" "" "t1" emptyEnvelope
      ⟨65537, "x"⟩ rfl (by decide) (by decide)⟩

end AnnotateCLI
